import Mathlib

/-!
Verification of the go-socks5 protocol engine (`server.go`).

The embedding models bytes as `Nat`, the client→server stream as a
`List Nat` consumed from the front, and the server→client stream as the
list of bytes the server writes.  Go's mutable `*Server` receiver is
threaded explicitly: every translated method returns the (possibly
updated) server alongside its results, so that frame properties are
provable rather than assumed.

Components of the repository that live outside `server.go` (the
`statute` wire codec, the option constructors, the built-in
authenticators, request parsing and request handling) are modelled from
the specification; each such definition carries a doc comment saying so.
-/

/-- Wire constant: the supported SOCKS protocol version byte
(`statute.VersionSocks5`). -/
def versionSocks5 : Nat := 5

/-- Wire constant: the method code advertised by the built-in no-auth
authenticator (spec scenario A: method byte `00`). -/
def methodNoAuth : Nat := 0

/-- Wire constant: the method code of the username/password authenticator
(spec scenario B: method byte `02`). -/
def methodUserPass : Nat := 2

/-- Wire constant: the "no acceptable methods" method-selection byte
(`statute.MethodNoAcceptable`, `0xFF`). -/
def methodNoAcceptable : Nat := 255

/-- Wire constant: reply status "address type not supported"
(`statute.RepAddrTypeNotSupported`). -/
def repAddrTypeNotSupported : Nat := 8

/-- Wire constant: address-type byte for IPv4. -/
def atypIPv4 : Nat := 1

/-- Wire constant: address-type byte for a domain name. -/
def atypDomain : Nat := 3

/-- Wire constant: address-type byte for IPv6. -/
def atypIPv6 : Nat := 4

/-- Errors surfaced by the protocol engine.  `eof` stands for any
short-read failure of the underlying transport; `noSupportedAuth`,
`notSupportVersion` and `unrecognizedAddrType` are the distinct sentinel
errors of the `statute` package; `schemeReject` is a scheme-specific
authentication failure; `unrecognizedCommand` is the parse failure for an
unknown command byte; `handleErr` is any error of the command executor. -/
inductive SockErr where
  | eof
  | noSupportedAuth
  | notSupportVersion
  | unrecognizedAddrType
  | unrecognizedCommand
  | schemeReject
  | handleErr (msg : String)
deriving DecidableEq, Repr

/-- Result of a successful authentication on one connection
(`AuthContext`): the method code used and the identity payload. -/
structure AuthContext where
  method : Nat
  payload : List (String × String)
deriving DecidableEq, Repr

/-- One negotiable authentication scheme (`Authenticator` interface):
its one-byte method code (`GetCode`) and its negotiation protocol
(`Authenticate`), which consumes bytes from the client stream, writes
bytes of its own sub-protocol, and produces an `AuthContext` or a
scheme-specific failure.  The function maps (input stream, peer address)
to (remaining input, bytes written, result). -/
structure Authenticator where
  getCode : Nat
  auth : List Nat → String → List Nat × List Nat × Except SockErr AuthContext

/-- Credential validator interface (spec §6):
`valid(username, password, peerAddress) → bool`. -/
structure CredentialStore where
  valid : List Nat → List Nat → String → Bool

/-- Modelled from the spec: the built-in no-auth authenticator
(`NoAuthAuthenticator`, not under `src/`).  It always succeeds, consumes
no client bytes and carries no identity (spec §4.2). -/
def noAuthAuthenticator : Authenticator :=
  { getCode := methodNoAuth
    auth := fun input _addr =>
      (input, [versionSocks5, methodNoAuth], .ok { method := methodNoAuth, payload := [] }) }

/-- Modelled from the spec: the built-in username/password authenticator
(`UserPassAuthenticator`, not under `src/`).  Its sub-protocol reads a
version byte, a length-prefixed username and a length-prefixed password,
validates them against the credential store, and rejects with a distinct
wire status on mismatch before failing (spec §4.2). -/
def userPassAuthenticator (store : CredentialStore) : Authenticator :=
  { getCode := methodUserPass
    auth := fun input addr =>
      match input with
      | _ver :: ulen :: rest =>
        if rest.length < ulen then (input, [versionSocks5, methodUserPass], .error .eof)
        else
          let user := rest.take ulen
          match rest.drop ulen with
          | plen :: rest2 =>
            if rest2.length < plen then (input, [versionSocks5, methodUserPass], .error .eof)
            else
              let pass := rest2.take plen
              let remaining := rest2.drop plen
              if store.valid user pass addr then
                (remaining, [versionSocks5, methodUserPass, 1, 0],
                  .ok { method := methodUserPass, payload := [("username", toString user)] })
              else
                (remaining, [versionSocks5, methodUserPass, 1, 1], .error .schemeReject)
          | [] => (input, [versionSocks5, methodUserPass], .error .eof)
      | _ => (input, [versionSocks5, methodUserPass], .error .eof) }

/-- The authenticator map `map[uint8]Authenticator`, as an association
list keyed by method code. -/
def AuthMap := List (Nat × Authenticator)

/-- Go map lookup `s.authMethods[method]`. -/
def mapGet (m : AuthMap) (k : Nat) : Option Authenticator :=
  match m with
  | [] => none
  | (k', v) :: rest => if k' = k then some v else mapGet rest k

/-- Go map insertion `s.authMethods[v.GetCode()] = v`: overwrite an
existing key, otherwise append. -/
def mapPut (m : AuthMap) (k : Nat) (v : Authenticator) : AuthMap :=
  match m with
  | [] => [(k, v)]
  | (k', v') :: rest => if k' = k then (k, v) :: rest else (k', v') :: mapPut rest k v

/-- The goroutine pool interface (`GPool`): `submitOk` tells whether its
`Submit` returns nil for the submitted unit of work. -/
structure GPool where
  submitOk : Bool
deriving DecidableEq, Repr

/-- The server configuration (`Server` struct).  Collaborator fields
(resolver, rules, rewriter, dial) are carried at their §6 interface
types; `bindIP`, `bufferPoolSize` and `loggerTag` stand for the
remaining configuration fields. -/
structure Server where
  authMethods : AuthMap
  authCustomMethods : List Authenticator
  credentials : Option CredentialStore
  resolver : String → Except SockErr (List Nat)
  rules : Nat → Bool
  rewriter : Nat → Nat
  bindIP : List Nat
  loggerTag : String
  dial : String → String → Except SockErr Nat
  bufferPoolSize : Nat
  gPool : Option GPool

/-- Modelled from the spec: the functional construction options
(`options.go` is not under `src/`).  Each option mutates one field of
the server under construction; supplying custom authenticators appends
them to the custom-authenticator list. -/
inductive ServerOption where
  | withAuthMethods (auths : List Authenticator)
  | withCredential (c : CredentialStore)
  | withGPool (g : GPool)
  | withBindIP (ip : List Nat)
  | withDial (d : String → String → Except SockErr Nat)

/-- Modelled from the spec: application of one construction option to
the server being built. -/
def applyOption (s : Server) (o : ServerOption) : Server :=
  match o with
  | .withAuthMethods auths => { s with authCustomMethods := s.authCustomMethods ++ auths }
  | .withCredential c => { s with credentials := some c }
  | .withGPool g => { s with gPool := some g }
  | .withBindIP ip => { s with bindIP := ip }
  | .withDial d => { s with dial := d }

/-- Registration loop of `NewServer`:
`for _, v := range server.authCustomMethods { server.authMethods[v.GetCode()] = v }`. -/
def registerAll (m : AuthMap) (l : List Authenticator) : AuthMap :=
  match l with
  | [] => m
  | v :: rest => registerAll (mapPut m v.getCode v) rest

/-- The default server literal built at the top of `NewServer`:
an empty authenticator map, `authCustomMethods` holding exactly the
no-auth authenticator, and default collaborators. -/
def defaultServer : Server :=
  { authMethods := []
    authCustomMethods := [noAuthAuthenticator]
    credentials := none
    resolver := fun _ => .error .eof
    rules := fun _ => true
    rewriter := fun a => a
    bindIP := []
    loggerTag := "socks5: "
    dial := fun _ _ => .error .eof
    bufferPoolSize := 2 * 1024
    gPool := none }

/-- `NewServer`: build the default server, apply the options, then
if `len(server.authCustomMethods) == 0 && server.credentials != nil`
replace the custom list with a username/password authenticator, and
finally register every custom authenticator in the map by its code. -/
def newServer (opts : List ServerOption) : Server :=
  let server := opts.foldl applyOption defaultServer
  let server :=
    if server.authCustomMethods.length = 0 ∧ server.credentials.isSome then
      { server with
          authCustomMethods :=
            [userPassAuthenticator (server.credentials.getD { valid := fun _ _ _ => false })] }
    else server
  { server with authMethods := registerAll server.authMethods server.authCustomMethods }

/-- One accepted connection, as the protocol engine observes it: the
bytes the client will send, whether writes to the client report success
(`conn.Write` and `SendReply` return nil), and the two transport
addresses. -/
structure Conn where
  input : List Nat
  writeOk : Bool
  remoteAddr : String
  localAddr : String

/-- Result of `authenticate`: the (threaded) server, the unread rest of
the client stream, the bytes written to the client, and the Go
`(*AuthContext, error)` pair as an `Except`. -/
structure AuthResult where
  server : Server
  remaining : List Nat
  written : List Nat
  result : Except SockErr AuthContext

/-- The method-selection loop of `authenticate` (`server.go` lines
157-167): scan the offered codes in client order, run the first
registered authenticator, and otherwise write the two-byte refusal
`[versionSocks5, methodNoAcceptable]` — whose write error is discarded
(`// nolint: errcheck`), hence `writeOk` is unused on that path — and
fail with `noSupportedAuth`. -/
def authenticate (s : Server) (writeOk : Bool) (input : List Nat) (userAddr : String)
    (methods : List Nat) : AuthResult :=
  match methods with
  | method :: rest =>
    match mapGet s.authMethods method with
    | some cator =>
      let (rem, w, res) := cator.auth input userAddr
      { server := s, remaining := rem, written := w, result := res }
    | none => authenticate s writeOk input userAddr rest
  | [] =>
    { server := s, remaining := input
      written := [versionSocks5, methodNoAcceptable]
      result := .error .noSupportedAuth }

/-- The parsed handshake (`statute.MethodRequest`): version byte and the
ordered method codes. -/
structure MethodRequest where
  ver : Nat
  methods : List Nat
deriving DecidableEq, Repr

/-- Modelled from the spec: `statute.ParseMethodRequest` (the `statute`
package is not under `src/`).  Wire format §6:
`version(1) | methodCount(1) | methods(methodCount)`; a short read is a
failure. -/
def parseMethodRequest (input : List Nat) :
    Except SockErr (MethodRequest × List Nat) :=
  match input with
  | ver :: n :: rest =>
    if rest.length < n then .error .eof
    else .ok ({ ver := ver, methods := rest.take n }, rest.drop n)
  | _ => .error .eof

/-- A destination or bound address (`statute.AddrSpec`): address-type
byte, raw address bytes (4 for IPv4, 16 for IPv6, the name bytes for a
domain), and port. -/
structure AddrSpec where
  atyp : Nat
  addr : List Nat
  port : Nat
deriving DecidableEq, Repr

/-- A parsed client command (`Request`): header fields, destination, and
the fields `ServeConn` attaches after parsing. -/
structure Request where
  version : Nat
  command : Nat
  dest : AddrSpec
  authContext : Option AuthContext
  localAddr : String
  remoteAddr : String
deriving Repr

/-- Modelled from the spec: address parsing inside request decoding
(spec §4.3) — address-type byte (IPv4 / domain-name / IPv6; anything
else is the distinct "unrecognized address type" failure), address bytes
(4, length-prefixed N, or 16), then a 2-byte big-endian port. -/
def parseAddrSpec (atyp : Nat) (input : List Nat) :
    Except SockErr (AddrSpec × List Nat) :=
  if atyp = atypIPv4 then
    match input with
    | a :: b :: c :: d :: p1 :: p2 :: rest =>
      .ok ({ atyp := atyp, addr := [a, b, c, d], port := p1 * 256 + p2 }, rest)
    | _ => .error .eof
  else if atyp = atypDomain then
    match input with
    | n :: rest =>
      if rest.length < n + 2 then .error .eof
      else
        match rest.drop n with
        | p1 :: p2 :: rest2 =>
          .ok ({ atyp := atyp, addr := rest.take n, port := p1 * 256 + p2 }, rest2)
        | _ => .error .eof
    | [] => .error .eof
  else if atyp = atypIPv6 then
    if input.length < 18 then .error .eof
    else
      match input.drop 16 with
      | p1 :: p2 :: rest2 =>
        .ok ({ atyp := atyp, addr := input.take 16, port := p1 * 256 + p2 }, rest2)
      | _ => .error .eof
  else .error .unrecognizedAddrType

/-- Modelled from the spec: `NewRequest` / `statute.ParseRequest`
(`request.go` and the `statute` package are not under `src/`).  Wire
format §4.3/§6: version byte, command byte (CONNECT=1 / BIND=2 /
UDP-ASSOCIATE=3, any other value is a parse failure), reserved byte,
then the destination address. -/
def newRequest (input : List Nat) : Except SockErr (Request × List Nat) :=
  match input with
  | ver :: cmd :: _rsv :: atyp :: rest =>
    if cmd ≠ 1 ∧ cmd ≠ 2 ∧ cmd ≠ 3 then .error .unrecognizedCommand
    else
      match parseAddrSpec atyp rest with
      | .error e => .error e
      | .ok (dest, rest2) =>
        .ok ({ version := ver, command := cmd, dest := dest,
               authContext := none, localAddr := "", remoteAddr := "" }, rest2)
  | _ => .error .eof

/-- Modelled from the spec: the reply encoding emitted by `SendReply`
(spec §4.3/§6): version byte, status byte, reserved byte, then the
bound address in address-type/address/port form — zero-valued (IPv4
0.0.0.0, port 0) when no meaningful local address exists. -/
def encodeReply (ver status : Nat) : List Nat :=
  [ver, status, 0, atypIPv4, 0, 0, 0, 0, 0, 0]

/-- How one call to `ServeConn` ended, mirroring its return paths:
handshake parse failure, version mismatch (`ErrNotSupportVersion`),
wrapped authentication failure, wrapped request-parse failure, a failure
of the `SendReply` on the unrecognized-address-type path, wrapped
request-handling failure, or a nil return. -/
inductive Outcome where
  | methodParseFailed (e : SockErr)
  | versionNotSupported
  | authFailed (e : SockErr)
  | requestParseFailed (e : SockErr)
  | sendReplyFailed (e : SockErr)
  | handleFailed (e : SockErr)
  | success
deriving DecidableEq, Repr

/-- Final state of one served connection: the threaded server, all bytes
written to the client, whether the connection was closed, and the
outcome. -/
structure ConnFinal where
  server : Server
  out : List Nat
  closed : Bool
  outcome : Outcome

/-- The command executor `s.handleRequest(conn, request)` (`request.go`,
not under `src/`), abstracted at its call boundary: given the server and
the finalized request it yields the bytes it writes and `none` for a nil
error. -/
def Handler := Server → Request → List Nat × Option SockErr

/-- The body of `ServeConn` (`server.go` lines 115-154) before the
deferred close: parse the handshake, check the version, authenticate,
parse the request — on `ErrUnrecognizedAddrType` send an
address-type-not-supported reply built from the handshake version first
— attach the auth context and addresses, and hand off to the command
executor. -/
def serveConnBody (handle : Handler) (s : Server) (c : Conn) : ConnFinal :=
  match parseMethodRequest c.input with
  | .error e => { server := s, out := [], closed := false, outcome := .methodParseFailed e }
  | .ok (mr, r1) =>
    if mr.ver ≠ versionSocks5 then
      { server := s, out := [], closed := false, outcome := .versionNotSupported }
    else
      let a := authenticate s c.writeOk r1 c.remoteAddr mr.methods
      match a.result with
      | .error e =>
        { server := a.server, out := a.written, closed := false, outcome := .authFailed e }
      | .ok authCtx =>
        match newRequest a.remaining with
        | .error e =>
          if e = .unrecognizedAddrType then
            if c.writeOk then
              { server := a.server
                out := a.written ++ encodeReply mr.ver repAddrTypeNotSupported
                closed := false, outcome := .requestParseFailed e }
            else
              { server := a.server
                out := a.written ++ encodeReply mr.ver repAddrTypeNotSupported
                closed := false, outcome := .sendReplyFailed e }
          else
            { server := a.server, out := a.written, closed := false
              outcome := .requestParseFailed e }
        | .ok (req, _rest) =>
          let req2 := { req with authContext := some authCtx
                                 localAddr := c.localAddr, remoteAddr := c.remoteAddr }
          let (w, herr) := handle a.server req2
          match herr with
          | some e => { server := a.server, out := a.written ++ w, closed := false
                        outcome := .handleFailed e }
          | none => { server := a.server, out := a.written ++ w, closed := false
                      outcome := .success }

/-- `ServeConn`: run the body under `defer conn.Close()` — whatever path
the body takes, the connection ends closed. -/
def serveConn (handle : Handler) (s : Server) (c : Conn) : ConnFinal :=
  let r := serveConnBody handle s c
  { r with closed := true }

/-- Where a unit of work handed to `submit` ends up running. -/
inductive SubmitDecision where
  | pooled
  | spawned
deriving DecidableEq, Repr

/-- The task dispatcher `submit` (`server.go` lines 169-173):
`if s.gPool == nil || s.gPool.Submit(f) != nil { go f() }` — the work
runs on the pool exactly when a pool is configured and its `Submit`
returns nil, and is spawned as an ad-hoc goroutine otherwise. -/
def submit (s : Server) : Server × SubmitDecision :=
  match s.gPool with
  | none => (s, .spawned)
  | some p => if p.submitOk then (s, .pooled) else (s, .spawned)

/-- One event observed by the accept loop: a successfully accepted
connection, or an `Accept` error. -/
inductive AcceptEvent where
  | conn (c : Conn)
  | acceptErr (e : String)

/-- Outcome of running the accept loop over a finite event script:
either it returned (only an `Accept` error does that) or it is still
looping; both carry the log lines emitted so far. -/
inductive ServeResult where
  | stopped (e : String) (logs : List String)
  | running (logs : List String)
deriving DecidableEq, Repr

/-- Log lines of a `ServeResult`. -/
def ServeResult.logs : ServeResult → List String
  | .stopped _ ls => ls
  | .running ls => ls

/-- The `Accept` error a `ServeResult` returned with, if any. -/
def ServeResult.stopErr : ServeResult → Option String
  | .stopped e _ => some e
  | .running _ => none

/-- One iteration of the accept loop on an accepted connection: submit
the closure (`s.submit(func() { ... })`), serve the connection, and log
`"server conn %v"` exactly when `ServeConn` returned an error.  Yields
the threaded server and the log lines of this iteration. -/
def serveStep (handle : Handler) (s : Server) (c : Conn) : Server × List String :=
  let s1 := (submit s).1
  let r := serveConn handle s1 c
  match r.outcome with
  | .success => (r.server, [])
  | _ => (r.server, ["server conn"])

/-- Accumulation of one iteration's log lines in front of the rest of
the loop's result. -/
def prependLogs (ls : List String) : ServeResult → ServeResult
  | .running logs => .running (ls ++ logs)
  | .stopped e logs => .stopped e (ls ++ logs)

/-- `Serve` (`server.go` lines 99-112) over a finite script of accept
events: return the error as soon as `Accept` fails, otherwise dispatch
the connection and keep looping. -/
def serve (handle : Handler) (s : Server) (events : List AcceptEvent) :
    Server × ServeResult :=
  match events with
  | [] => (s, .running [])
  | .acceptErr e :: _ => (s, .stopped e [])
  | .conn c :: rest =>
    let step := serveStep handle s c
    let next := serve handle step.1 rest
    (next.1, prependLogs step.2 next.2)

/-- Helper: on an offered list whose codes are all absent from the
authenticator map, the selection loop falls through to the two-byte
refusal and the distinct `noSupportedAuth` error, for any write
behaviour. -/
theorem authenticate_none_aux (s : Server) (wOk : Bool) (input : List Nat) (addr : String)
    (methods : List Nat) (h : ∀ m ∈ methods, mapGet s.authMethods m = none) :
    authenticate s wOk input addr methods =
      { server := s, remaining := input
        written := [versionSocks5, methodNoAcceptable]
        result := .error .noSupportedAuth } := by
  induction methods with
  | nil => rfl
  | cons m tl ih =>
    have hm : mapGet s.authMethods m = none := h m (List.mem_cons_self m tl)
    have htl : ∀ x ∈ tl, mapGet s.authMethods x = none :=
      fun x hx => h x (List.mem_cons_of_mem m hx)
    simpa [authenticate, hm] using ih htl

/-- C1: the claim says that with a credential store set and no custom
authenticators supplied, `NewServer` registers a username/password
authenticator automatically.  The code does not: `authCustomMethods` is
initialized to `[&NoAuthAuthenticator{}]`, so the guard
`len(server.authCustomMethods) == 0` at line 78 is false and the
username/password branch is dead; only the no-auth authenticator ends up
in the map. -/
theorem newServer_credentials_ignored (c : CredentialStore) :
    (newServer [ServerOption.withCredential c]).credentials = some c ∧
    (newServer [ServerOption.withCredential c]).authMethods
      = [(methodNoAuth, noAuthAuthenticator)] ∧
    mapGet (newServer [ServerOption.withCredential c]).authMethods methodUserPass = none := by
  exact ⟨rfl, rfl, rfl⟩

/-- C6: every unit of work handed to `submit` is scheduled exactly once:
on the pool exactly when a pool is configured and its `Submit` returns
nil, and as an ad-hoc goroutine in every other case — never dropped. -/
theorem submit_schedules_exactly_once (s : Server) :
    ((submit s).2 = .pooled ∨ (submit s).2 = .spawned) ∧
    ((submit s).2 = .pooled ↔ ∃ p, s.gPool = some p ∧ p.submitOk = true) ∧
    ((submit s).2 = .spawned ↔
      s.gPool = none ∨ ∃ p, s.gPool = some p ∧ p.submitOk = false) := by
  match hg : s.gPool with
  | none => simp [submit, hg]
  | some p =>
    by_cases hp : p.submitOk <;>
      simp [submit, hg, hp]

/-- C7: `defer conn.Close()` runs on every exit path of `ServeConn`, so
the connection is closed whatever the outcome. -/
theorem serveConn_closes (handle : Handler) (s : Server) (c : Conn) :
    (serveConn handle s c).closed = true := rfl

/-- Helper: a handshake built as version, count, count-many method bytes
followed by the rest of the stream parses back to exactly those methods. -/
theorem parseMethodRequest_exact (v : Nat) (methods rest : List Nat) :
    parseMethodRequest (v :: methods.length :: (methods ++ rest)) =
      .ok ({ ver := v, methods := methods }, rest) := by
  have hlen : ¬ (methods ++ rest).length < methods.length := by
    simp [List.length_append]
  simp [parseMethodRequest, hlen, List.take_left, List.drop_left]

/-- C2: when every offered method code is absent from the authenticator
map, `authenticate` writes exactly the two bytes
`[versionSocks5, methodNoAcceptable]` and fails with the distinct
`noSupportedAuth` error, and `ServeConn` on such a handshake returns
with the wrapped authentication failure — the request stage is never
reached, so the result does not depend on the bytes after the handshake. -/
theorem authenticate_no_acceptable (handle : Handler) (s : Server) (wOk : Bool)
    (input methods rest : List Nat) (raddr laddr : String)
    (hdisj : ∀ m ∈ methods, mapGet s.authMethods m = none) :
    authenticate s wOk input raddr methods =
      { server := s, remaining := input
        written := [versionSocks5, methodNoAcceptable]
        result := .error .noSupportedAuth } ∧
    (serveConn handle s
        { input := versionSocks5 :: methods.length :: (methods ++ rest)
          writeOk := wOk, remoteAddr := raddr, localAddr := laddr }).outcome
      = .authFailed .noSupportedAuth ∧
    (serveConn handle s
        { input := versionSocks5 :: methods.length :: (methods ++ rest)
          writeOk := wOk, remoteAddr := raddr, localAddr := laddr }).out
      = [versionSocks5, methodNoAcceptable] := by
  have hp := parseMethodRequest_exact versionSocks5 methods rest
  have haux := authenticate_none_aux s wOk rest raddr methods hdisj
  refine ⟨authenticate_none_aux s wOk input raddr methods hdisj, ?_, ?_⟩ <;>
    simp [serveConn, serveConnBody, hp, haux]

/-- C2 witness: a server with only the default no-auth method, offered
only method `02`, is refused with the two-byte reply. -/
theorem authenticate_no_acceptable_witness :
    (serveConn (fun _ _ => ([], none)) (newServer [])
      { input := [5, 1, 2], writeOk := true, remoteAddr := "c", localAddr := "s" }).out
      = [versionSocks5, methodNoAcceptable] := by
  have h := authenticate_no_acceptable (fun _ _ => ([], none)) (newServer []) true
      [] [2] [] "c" "s" (by intro m hm; simp at hm; subst hm; rfl)
  exact h.2.2

/-- C3: when the offered list meets the authenticator map, the first
offered code present in the map — in the order the client sent the
codes — is selected, exactly that authenticator's negotiation runs, and
its result is returned unchanged. -/
theorem authenticate_first_match (s : Server) (wOk : Bool) (input : List Nat)
    (raddr : String) (methods : List Nat) (m : Nat) (cator : Authenticator)
    (hfind : methods.find? (fun x => (mapGet s.authMethods x).isSome) = some m)
    (hm : mapGet s.authMethods m = some cator) :
    authenticate s wOk input raddr methods =
      { server := s, remaining := (cator.auth input raddr).1
        written := (cator.auth input raddr).2.1
        result := (cator.auth input raddr).2.2 } := by
  induction methods with
  | nil => simp [List.find?] at hfind
  | cons x tl ih =>
    by_cases hx : (mapGet s.authMethods x).isSome
    · have hxm : m = x := by
        rw [List.find?_cons_of_pos _ (by simpa using hx)] at hfind
        exact (Option.some_inj.mp hfind).symm
      subst hxm
      simp [authenticate, hm]
    · have hnone : mapGet s.authMethods x = none := by
        simpa [Option.not_isSome_iff_eq_none] using hx
      rw [List.find?_cons_of_neg _ (by simpa using hx)] at hfind
      simpa [authenticate, hnone] using ih hfind

/-- C3 witness: offered `[9, 0]` against the default server selects the
no-auth authenticator (code 0, the first offered code in the map) and
returns its successful context unchanged. -/
theorem authenticate_first_match_witness :
    (authenticate (newServer []) true [] "c" [9, methodNoAuth]).result
      = .ok { method := methodNoAuth, payload := [] } := by
  have h := authenticate_first_match (newServer []) true [] "c" [9, methodNoAuth]
      methodNoAuth noAuthAuthenticator (by rfl) (by rfl)
  rw [h]
  rfl

/-- C10: on the no-acceptable-methods path, the outcome of writing the
two-byte refusal is discarded (`// nolint: errcheck`): the returned pair
is the `noSupportedAuth` error with no auth context whether the write
succeeds or fails. -/
theorem authenticate_ignores_write_error (s : Server) (input : List Nat)
    (addr : String) (methods : List Nat)
    (hdisj : ∀ m ∈ methods, mapGet s.authMethods m = none) (w1 w2 : Bool) :
    authenticate s w1 input addr methods = authenticate s w2 input addr methods ∧
    (authenticate s w1 input addr methods).result = .error .noSupportedAuth := by
  rw [authenticate_none_aux s w1 input addr methods hdisj,
      authenticate_none_aux s w2 input addr methods hdisj]
  exact ⟨rfl, rfl⟩

/-- C10 witness: with only method `02` offered to the default server,
the refused negotiation returns the same error for a succeeding and for
a failing refusal write. -/
theorem authenticate_ignores_write_error_witness :
    authenticate (newServer []) true [] "c" [2] = authenticate (newServer []) false [] "c" [2] ∧
    (authenticate (newServer []) true [] "c" [2]).result = .error .noSupportedAuth := by
  exact authenticate_ignores_write_error (newServer []) [] "c" [2]
    (by intro m hm; simp at hm; subst hm; rfl) true false

/-- C5: a handshake advertising any version other than `versionSocks5`
makes `ServeConn` fail immediately with the version-not-supported error,
writing no reply bytes on that path (and still closing the connection). -/
theorem serveConn_version_mismatch (handle : Handler) (s : Server) (c : Conn)
    (mr : MethodRequest) (r1 : List Nat)
    (hp : parseMethodRequest c.input = .ok (mr, r1))
    (hv : mr.ver ≠ versionSocks5) :
    (serveConn handle s c).outcome = .versionNotSupported ∧
    (serveConn handle s c).out = [] ∧
    (serveConn handle s c).closed = true := by
  refine ⟨?_, ?_, rfl⟩ <;> simp [serveConn, serveConnBody, hp, hv]

/-- C5 witness: a client advertising version 4 is rejected with no bytes
written. -/
theorem serveConn_version_mismatch_witness :
    (serveConn (fun _ _ => ([], none)) (newServer [])
      { input := [4, 1, 0], writeOk := true, remoteAddr := "c", localAddr := "s" }).outcome
      = .versionNotSupported := by
  have h := serveConn_version_mismatch (fun _ _ => ([], none)) (newServer [])
      { input := [4, 1, 0], writeOk := true, remoteAddr := "c", localAddr := "s" }
      { ver := 4, methods := [0] } [] rfl (by decide)
  exact h.1

/-- C4: when request parsing fails after a successful authentication,
`ServeConn` writes an address-type-not-supported reply built with the
handshake's protocol version exactly when the failure is
`unrecognizedAddrType`, and writes nothing further for any other parse
failure; either way it returns the wrapped parse error. -/
theorem serveConn_addr_type_reply (handle : Handler) (s : Server) (c : Conn)
    (mr : MethodRequest) (r1 : List Nat) (ctx : AuthContext) (e : SockErr)
    (hp : parseMethodRequest c.input = .ok (mr, r1))
    (hv : mr.ver = versionSocks5)
    (hares : (authenticate s c.writeOk r1 c.remoteAddr mr.methods).result = .ok ctx)
    (hw : c.writeOk = true)
    (hr : newRequest (authenticate s c.writeOk r1 c.remoteAddr mr.methods).remaining
            = .error e) :
    (serveConn handle s c).outcome = .requestParseFailed e ∧
    (serveConn handle s c).out =
      (authenticate s c.writeOk r1 c.remoteAddr mr.methods).written ++
        (if e = .unrecognizedAddrType
         then encodeReply mr.ver repAddrTypeNotSupported else []) := by
  rw [hw] at hares hr
  by_cases he : e = SockErr.unrecognizedAddrType <;>
    simp [serveConn, serveConnBody, hp, hv, hares, hr, hw, he]

/-- C4 witness: after a no-auth handshake, a request with address-type
byte 9 triggers the reply `encodeReply 5 repAddrTypeNotSupported` after
the authenticator's own two bytes. -/
theorem serveConn_addr_type_reply_witness :
    (serveConn (fun _ _ => ([], none)) (newServer [])
      { input := [5, 1, 0, 5, 1, 0, 9], writeOk := true
        remoteAddr := "c", localAddr := "s" }).out
      = [5, 0] ++ encodeReply versionSocks5 repAddrTypeNotSupported := by
  have h := serveConn_addr_type_reply (fun _ _ => ([], none)) (newServer [])
      { input := [5, 1, 0, 5, 1, 0, 9], writeOk := true, remoteAddr := "c", localAddr := "s" }
      { ver := 5, methods := [0] } [5, 1, 0, 9] { method := methodNoAuth, payload := [] }
      SockErr.unrecognizedAddrType rfl rfl rfl rfl rfl
  rw [h.2]
  rfl

/-- Helper: `submit` never touches the server value. -/
theorem submit_fst (s : Server) : (submit s).1 = s := by
  rcases hg : s.gPool with _ | p <;> simp [submit, hg]
  by_cases hp : p.submitOk <;> simp [hp]

/-- Helper: the fixed two log-accumulation facts about `prependLogs`. -/
theorem prependLogs_stopErr (ls : List String) (r : ServeResult) :
    (prependLogs ls r).stopErr = r.stopErr := by
  cases r <;> rfl

/-- Helper: the logs of a prefixed result are the prefix followed by the
original logs. -/
theorem prependLogs_logs (ls : List String) (r : ServeResult) :
    (prependLogs ls r).logs = ls ++ r.logs := by
  cases r <;> rfl

/-- Helper: unfolding of `serve` on an accepted connection. -/
theorem serve_cons (handle : Handler) (s : Server) (c : Conn) (rest : List AcceptEvent) :
    serve handle s (AcceptEvent.conn c :: rest)
      = ((serve handle (serveStep handle s c).1 rest).1,
         prependLogs (serveStep handle s c).2
           (serve handle (serveStep handle s c).1 rest).2) := rfl

/-- Helper: `authenticate` never touches the server value. -/
theorem authenticate_server (s : Server) (wOk : Bool) (input : List Nat)
    (addr : String) (methods : List Nat) :
    (authenticate s wOk input addr methods).server = s := by
  induction methods with
  | nil => rfl
  | cons m tl ih =>
    cases hm : mapGet s.authMethods m <;> simp [authenticate, hm, ih]

/-- Helper: the body of `ServeConn` returns the server it was given on
every branch. -/
theorem serveConnBody_server (handle : Handler) (s : Server) (c : Conn) :
    (serveConnBody handle s c).server = s := by
  simp only [serveConnBody]
  repeat' split
  all_goals simp [authenticate_server]

/-- Helper: `ServeConn` returns the server it was given. -/
theorem serveConn_server (handle : Handler) (s : Server) (c : Conn) :
    (serveConn handle s c).server = s :=
  serveConnBody_server handle s c

/-- Helper: one accept-loop iteration returns the server it was given. -/
theorem serveStep_fst (handle : Handler) (s : Server) (c : Conn) :
    (serveStep handle s c).1 = s := by
  simp only [serveStep, submit_fst]
  split <;> simp [serveConn_server]

/-- Helper: the accept loop returns the server it was given. -/
theorem serve_fst (handle : Handler) (s : Server) (events : List AcceptEvent) :
    (serve handle s events).1 = s := by
  induction events generalizing s with
  | nil => rfl
  | cons ev tl ih =>
    cases ev with
    | acceptErr e => rfl
    | conn c => rw [serve_cons]; simpa [serveStep_fst] using ih (serveStep handle s c).1

/-- C9: no field of the server is mutated after construction —
`authenticate`, `submit`, `ServeConn` and the `Serve` loop all hand back
the very server value they received, for every sequence of served
connections. -/
theorem server_immutable (handle : Handler) (s : Server) (wOk : Bool) (input : List Nat)
    (addr : String) (methods : List Nat) (c : Conn) (events : List AcceptEvent) :
    (authenticate s wOk input addr methods).server = s ∧
    (submit s).1 = s ∧
    (serveConn handle s c).server = s ∧
    (serve handle s events).1 = s :=
  ⟨authenticate_server s wOk input addr methods, submit_fst s,
    serveConn_server handle s c, serve_fst handle s events⟩

/-- C8: the accept loop returns an error exactly when some `Accept`
call fails; an accepted connection only contributes its log lines (one
line exactly when `ServeConn` failed) and the loop's fate is decided by
the remaining events alone. -/
theorem serve_stops_iff_accept_error (handle : Handler) (s : Server)
    (events : List AcceptEvent) :
    ((serve handle s events).2.stopErr ≠ none ↔
      ∃ e, AcceptEvent.acceptErr e ∈ events) ∧
    (∀ c rest, events = AcceptEvent.conn c :: rest →
      (serve handle s events).2.stopErr
        = (serve handle (serveStep handle s c).1 rest).2.stopErr ∧
      (serve handle s events).2.logs
        = (serveStep handle s c).2
            ++ (serve handle (serveStep handle s c).1 rest).2.logs) ∧
    (∀ c2, (serveStep handle s c2).2 = []
        ↔ (serveConn handle s c2).outcome = .success) := by
  refine ⟨?_, ?_, ?_⟩
  · induction events generalizing s with
    | nil => simp [serve, ServeResult.stopErr]
    | cons ev tl ih =>
      cases ev with
      | acceptErr e => simp [serve, ServeResult.stopErr]
      | conn c =>
        rw [serve_cons, prependLogs_stopErr, ih]
        simp
  · intro c rest hev
    subst hev
    rw [serve_cons]
    exact ⟨(prependLogs_stopErr _ _).symm ▸ rfl, prependLogs_logs _ _⟩
  · intro c2
    simp only [serveStep, submit_fst]
    split
    · simp_all
    · simp_all
